import Mathlib

/-!
Verification of the `telegifdl` download/upload pipeline (`main.go`, `upload.go`).

The concurrency core of `run` (main.go) is a producer that lists saved gifs and
sends the non-empty documents onto a bounded channel, plus `jobs` workers that
drain the channel and download each gif to a deterministic local path, all under
one `errgroup` with a shared cancellable context.

Shallow embedding conventions:
- `tg.Document` becomes `Document` (the fields the core uses: `ID`, `Date`).
- `tg.DocumentClass` with its `AsNotEmpty` conversion becomes `DocumentClass`.
- The producer body (main.go lines 120-150) becomes `producerRun`, a function of
  the listing call's outcome; the `defer close(gifs)` is modelled by the
  `closeCount` field, set on every exit path exactly as the defer fires.
- A worker body (main.go lines 152-178) becomes `workerRun`, a function of the
  sublist of channel items this worker receives; the ambient filesystem probe
  `os.Stat` and the `Download(..).ToPath` call are the `Env` record's fields.
  `attempted` records the download calls issued, in order (the call trace).
- The Go channel's exactly-once delivery is modelled by quantifying over an
  arbitrary split `assign` of the emitted items into per-worker sublists whose
  concatenation is a permutation of the emitted list.
- `errgroup.Group` (first error wins, cancels the shared context, `Wait` blocks
  for all tasks) becomes `groupWait`, a fold over the tasks' results listed in
  completion order.
- `upload` (upload.go) becomes `uploadFile` / `uploadRun` over the outcomes of
  the per-file remote calls.
-/

/-- Error values: `remote` stands for an opaque failure of a remote call,
`msg` for a `xerrors.New` message, `wrap` for `xerrors.Errorf "tag: %w"` around
a non-nil error, `wrapNil` for the same format applied to a nil error value,
and `typeAssertionFailure` for the runtime abort of a failed Go type
assertion. -/
inductive Err where
  | remote (code : Nat)
  | msg (s : String)
  | wrap (tag : String) (inner : Err)
  | wrapNil (tag : String)
  | typeAssertionFailure
deriving DecidableEq, Repr

/-- The fields of `tg.Document` the pipeline reads: `ID` and `Date`. -/
structure Document where
  id : Int
  date : Int
deriving DecidableEq, Repr

/-- The `tg.DocumentClass` sum: a document is either empty (tombstoned) or a
proper document; `asNotEmpty` mirrors `DocumentClass.AsNotEmpty`. -/
inductive DocumentClass where
  | documentEmpty (id : Int)
  | document (d : Document)
deriving DecidableEq, Repr

/-- Mirrors `tg.DocumentClass.AsNotEmpty`: `some` exactly on proper documents. -/
def DocumentClass.asNotEmpty : DocumentClass → Option Document
  | .documentEmpty _ => none
  | .document d => some d

/-- The two shapes of `messages.getSavedGifs` results the producer switches on:
`tg.MessagesSavedGifsNotModified` and `tg.MessagesSavedGifs` with its page. -/
inductive SavedGifsResult where
  | notModified
  | gifs (docs : List DocumentClass)
deriving DecidableEq, Repr

/-- What the producer goroutine did: the documents sent on the `gifs` channel in
order, its returned error, and how many times it closed the channel. -/
structure ProducerOut where
  emitted : List Document
  err : Option Err
  closeCount : Nat
deriving DecidableEq, Repr

/-- Embedding of the producer goroutine, main.go lines 120-150. The argument is
the outcome of `api.MessagesGetSavedGifs(ctx, 0)`. `defer close(gifs)` fires on
every path, hence `closeCount := 1` on each branch. On a call error the producer
returns `xerrors.Errorf("get: %w", err)`; on `NotModified` and on an empty page
it returns nil; otherwise it sends every `AsNotEmpty` document, skipping the
rest. -/
def producerRun (r : Except Err SavedGifsResult) : ProducerOut :=
  match r with
  | .error e => ⟨[], some (.wrap "get" e), 1⟩
  | .ok .notModified => ⟨[], none, 1⟩
  | .ok (.gifs docs) =>
    if docs.length = 0 then ⟨[], none, 1⟩
    else ⟨docs.filterMap DocumentClass.asNotEmpty, none, 1⟩

/-- Model of `fmt.Sprintf("%d", ...)` on an `int64`. -/
def sprintfInt (n : Int) : String := toString n

/-- Model of `filepath.Join` on two components (the `Clean` normalisation is
omitted; it does not affect any claim checked here). -/
def filepathJoin (a b : String) : String :=
  if a = "" then b else a ++ "/" ++ b

/-- The worker's path derivation, main.go line 157:
`filepath.Join(outputDir, fmt.Sprintf("%d.mp4", doc.ID))`. -/
def gifPath (outputDir : String) (d : Document) : String :=
  filepathJoin outputDir (sprintfInt d.id ++ ".mp4")

/-- What a worker does with one dequeued document. -/
inductive TransferOutcome where
  | skipped
  | downloaded
deriving DecidableEq, Repr

/-- The ambient effects a worker consumes: the configured output directory, the
`os.Stat`-succeeds probe, and the `d.Download(api, loc).ToPath(ctx, path)`
call's outcome keyed by document and destination path. -/
structure Env where
  outputDir : String
  fileExists : String → Bool
  download : Document → String → Except Err Unit

/-- What one worker goroutine did: the per-document outcomes in dequeue order
(dropped from the point of failure on), the ids whose download call was issued
(the call trace), and the worker's returned error. -/
structure WorkerOut where
  results : List (Int × TransferOutcome)
  attempted : List Int
  err : Option Err
deriving DecidableEq, Repr

/-- Embedding of one worker goroutine, main.go lines 152-178, applied to the
sublist of channel items this worker receives. For each document: derive the
path; if `os.Stat` succeeds, skip and continue; otherwise download, and on a
download error return `xerrors.Errorf("download: %w", err)` at once, consuming
nothing further. -/
def workerRun (env : Env) : List Document → WorkerOut
  | [] => ⟨[], [], none⟩
  | d :: rest =>
    let p := gifPath env.outputDir d
    if env.fileExists p then
      let o := workerRun env rest
      ⟨(d.id, .skipped) :: o.results, o.attempted, o.err⟩
    else
      match env.download d p with
      | .ok _ =>
        let o := workerRun env rest
        ⟨(d.id, .downloaded) :: o.results, d.id :: o.attempted, o.err⟩
      | .error e => ⟨[], [d.id], some (.wrap "download" e)⟩

/-- Number of documents this worker downloaded. -/
def downloadCount (w : WorkerOut) : Nat :=
  w.results.countP (fun r => r.2 == TransferOutcome.downloaded)

/-- Number of documents this worker skipped as already present. -/
def skipCount (w : WorkerOut) : Nat :=
  w.results.countP (fun r => r.2 == TransferOutcome.skipped)

/-- The local filesystem after a completed run of `workerRun env docs`: a path
exists iff it existed before or is the derived path of a processed document (a
skipped document's path already existed; a downloaded one was written by
`ToPath`). -/
def fsAfter (env : Env) (docs : List Document) : String → Bool :=
  fun p => env.fileExists p || docs.any (fun d => gifPath env.outputDir d == p)

/-- The `errgroup` cell: the first recorded error and whether the shared context
has been cancelled. -/
structure GroupState where
  firstErr : Option Err
  cancelled : Bool
deriving DecidableEq, Repr

/-- One task finishing with result `r`: `errgroup.Group.Go`'s once-guarded
record-and-cancel. A nil result changes nothing; the first non-nil result is
recorded and cancels the context; later non-nil results are discarded. -/
def groupStep (s : GroupState) (r : Option Err) : GroupState :=
  match r with
  | none => s
  | some e => if s.firstErr.isSome then s else ⟨some e, true⟩

/-- `errgroup.Group.Wait` over the tasks' results in completion order: folds
every task's result (it returns only after all tasks finished). -/
def groupWait (results : List (Option Err)) : GroupState :=
  results.foldl groupStep ⟨none, false⟩

/-- The capacity of the `gifs` channel, main.go line 118:
`make(chan *tg.Document, *jobs)`. -/
def gifsChanCap (jobs : Nat) : Nat := jobs

/-- One step of the `gifs` channel viewed as a bounded FIFO queue: a send
appends and is only enabled while the queue is below capacity (the producer
blocks otherwise); a receive removes the head. -/
inductive ChanStep (cap : Nat) : List Document → List Document → Prop
  | send (d : Document) (q : List Document) (h : q.length < cap) :
      ChanStep cap q (q ++ [d])
  | recv (d : Document) (q : List Document) : ChanStep cap (d :: q) q

/-- Channel contents reachable from the empty channel. -/
def ChanReach (cap : Nat) (q : List Document) : Prop :=
  Relation.ReflTransGen (ChanStep cap) [] q

/-- The media of a sent message, as the upload loop inspects it: either a
`tg.MessageMediaDocument` carrying a `DocumentClass`, or some other (possibly
nil) media class, on which the source's type assertion would abort. -/
inductive Media where
  | mediaDocument (dc : DocumentClass)
  | otherMedia
deriving DecidableEq, Repr

/-- One update inside a `tg.Updates` batch, as the upload loop switches on it. -/
inductive Upd where
  | updateNewMessage (msgId : Int) (media : Media)
  | otherUpdate
deriving DecidableEq, Repr

/-- The result of `sender.Media`, as the upload loop switches on it:
`tg.UpdateShortSentMessage`, `tg.Updates`, or any other update class. -/
inductive SendResult where
  | updateShortSentMessage (id : Int) (media : Media)
  | updatesBatch (us : List Upd)
  | otherUpdateType
deriving DecidableEq, Repr

/-- Locating the sent message, upload.go lines 55-78: iterate the batch letting
every `UpdateNewMessage` overwrite `sentID`/`sentMedia` (Go zero values `0` and
nil interface, here `Media.otherMedia`, to start); fail with "unable to find
sent message" when `sentID` stays `0`, and with "unexpected update type" on any
other update class. -/
def findSent : SendResult → Except Err (Int × Media)
  | .updateShortSentMessage i m => .ok (i, m)
  | .updatesBatch us =>
    let r := us.foldl
      (fun acc u =>
        match u with
        | Upd.updateNewMessage i m => (i, m)
        | Upd.otherUpdate => acc)
      ((0 : Int), Media.otherMedia)
    if r.1 = 0 then .error (Err.msg "unable to find sent message") else .ok r
  | .otherUpdateType => .error (Err.msg "unexpected update type")

/-- Outcomes of the remote calls the upload loop issues for one file:
`u.FromPath`, `sender.Media`, `MessagesSaveGif` (its `saveErr`), and
`sender.Revoke().Messages` (its `deleteErr`). -/
structure FileOps where
  fromPathErr : Option Err
  sendResult : Except Err SendResult
  saveErr : Option Err
  deleteErr : Option Err
deriving Repr

/-- Embedding of one iteration of the upload loop, upload.go lines 36-97. The
first component counts media transfers actually performed (`sender.Media` is
invoked whenever `FromPath` succeeded; there is no already-transferred check
anywhere on the path). On a failed delete the source returns
`xerrors.Errorf("delete: %w", err)` where `err` is the earlier, already
nil-checked variable — not `deleteErr` — so the returned error is `wrapNil`. -/
def uploadFile (fo : FileOps) : Nat × Option Err :=
  match fo.fromPathErr with
  | some e => (0, some e)
  | none =>
    (1,
      match fo.sendResult with
      | .error e => some e
      | .ok upd =>
        match findSent upd with
        | .error e => some e
        | .ok (_sentID, sentMedia) =>
          match sentMedia with
          | .otherMedia => some Err.typeAssertionFailure
          | .mediaDocument dc =>
            match dc.asNotEmpty with
            | none => some (Err.msg "unexpected document")
            | some _ =>
              match fo.deleteErr with
              | some _ => some (Err.wrapNil "delete")
              | none =>
                match fo.saveErr with
                | some se => some (Err.wrap "save" se)
                | none => none)

/-- What a whole `upload` call did: how many media transfers it performed and
the error it returned. -/
structure UploadOut where
  transfers : Nat
  err : Option Err
deriving DecidableEq, Repr

/-- Embedding of the upload loop over the selected file names, upload.go lines
35-98: process files in order, stopping at the first error. -/
def uploadRun (ops : String → FileOps) : List String → UploadOut
  | [] => ⟨0, none⟩
  | n :: rest =>
    let r := uploadFile (ops n)
    match r.2 with
    | some e => ⟨r.1, some e⟩
    | none =>
      let o := uploadRun ops rest
      ⟨r.1 + o.transfers, o.err⟩

/-- Model of `path.Ext`: the suffix of the final path element starting at its
last dot, or the empty string when that element has no dot. -/
def pathExt (s : String) : String :=
  let seg := s.toList.reverse.takeWhile (fun c => c ≠ '/')
  if seg.contains '.' then
    String.mk ('.' :: (seg.takeWhile (fun c => c ≠ '.')).reverse)
  else ""

/-- File selection of `upload`, upload.go lines 23-28: keep the directory
entries whose extension is `.mp4`, joined onto the input directory. -/
def uploadNames (inputDir : String) (entries : List String) : List String :=
  (entries.filter (fun e => pathExt e == ".mp4")).map (fun e => filepathJoin inputDir e)

/-! Helper lemmas. -/

/-- Unfolding `workerRun` on a document whose path already exists. -/
theorem workerRun_cons_skip (env : Env) (d : Document) (rest : List Document)
    (hx : env.fileExists (gifPath env.outputDir d) = true) :
    workerRun env (d :: rest) =
      ⟨(d.id, TransferOutcome.skipped) :: (workerRun env rest).results,
       (workerRun env rest).attempted, (workerRun env rest).err⟩ := by
  simp [workerRun, hx]

/-- Unfolding `workerRun` on a document that downloads successfully. -/
theorem workerRun_cons_dl (env : Env) (d : Document) (rest : List Document)
    (hx : env.fileExists (gifPath env.outputDir d) = false)
    (hdl : env.download d (gifPath env.outputDir d) = Except.ok ()) :
    workerRun env (d :: rest) =
      ⟨(d.id, TransferOutcome.downloaded) :: (workerRun env rest).results,
       d.id :: (workerRun env rest).attempted, (workerRun env rest).err⟩ := by
  simp [workerRun, hx, hdl]

/-- Unfolding `workerRun` on a document whose download call fails. -/
theorem workerRun_cons_fail (env : Env) (d : Document) (rest : List Document)
    (e : Err) (hx : env.fileExists (gifPath env.outputDir d) = false)
    (hdl : env.download d (gifPath env.outputDir d) = Except.error e) :
    workerRun env (d :: rest) =
      ⟨[], [d.id], some (Err.wrap "download" e)⟩ := by
  simp [workerRun, hx, hdl]

/-- When every download call succeeds, a worker processes its whole sublist:
the per-document outcomes cover the documents in order and the worker returns
nil. -/
theorem workerRun_total (env : Env)
    (hok : ∀ d p, env.download d p = Except.ok ()) :
    ∀ l : List Document,
      (workerRun env l).results.map Prod.fst = l.map Document.id ∧
      (workerRun env l).err = none := by
  intro l
  induction l with
  | nil => exact ⟨rfl, rfl⟩
  | cons d rest ih =>
    cases hx : env.fileExists (gifPath env.outputDir d) with
    | true =>
      rw [workerRun_cons_skip env d rest hx]
      exact ⟨by simp [ih.1], ih.2⟩
    | false =>
      rw [workerRun_cons_dl env d rest hx (hok d (gifPath env.outputDir d))]
      exact ⟨by simp [ih.1], ih.2⟩

/-- Every per-document outcome is a download or a skip, so the two counts add
up to the number of processed documents. -/
theorem count_outcomes (l : List (Int × TransferOutcome)) :
    l.countP (fun r => r.2 == TransferOutcome.downloaded) +
      l.countP (fun r => r.2 == TransferOutcome.skipped) = l.length := by
  induction l with
  | nil => rfl
  | cons r rest ih =>
    cases r with
    | mk i oc =>
      cases oc with
      | skipped =>
        simp only [List.countP_cons,
          show ((TransferOutcome.skipped == TransferOutcome.downloaded) = false) from rfl,
          show ((TransferOutcome.skipped == TransferOutcome.skipped) = true) from rfl,
          List.length_cons]
        simp only [if_true, if_false, Bool.false_eq_true]
        omega
      | downloaded =>
        simp only [List.countP_cons,
          show ((TransferOutcome.downloaded == TransferOutcome.downloaded) = true) from rfl,
          show ((TransferOutcome.downloaded == TransferOutcome.skipped) = false) from rfl,
          List.length_cons]
        simp only [if_true, if_false, Bool.false_eq_true]
        omega

/-- A worker's run splits over an append as long as the first part ends without
error. -/
theorem workerRun_append (env : Env) (l1 l2 : List Document)
    (h : (workerRun env l1).err = none) :
    workerRun env (l1 ++ l2) =
      ⟨(workerRun env l1).results ++ (workerRun env l2).results,
       (workerRun env l1).attempted ++ (workerRun env l2).attempted,
       (workerRun env l2).err⟩ := by
  induction l1 with
  | nil => simp [workerRun]
  | cons d rest ih =>
    cases hx : env.fileExists (gifPath env.outputDir d) with
    | true =>
      rw [workerRun_cons_skip env d rest hx] at h
      rw [List.cons_append, workerRun_cons_skip env d (rest ++ l2) hx,
        workerRun_cons_skip env d rest hx, ih h]
      simp
    | false =>
      cases hdl : env.download d (gifPath env.outputDir d) with
      | ok u =>
        cases u
        rw [workerRun_cons_dl env d rest hx hdl] at h
        rw [List.cons_append, workerRun_cons_dl env d (rest ++ l2) hx hdl,
          workerRun_cons_dl env d rest hx hdl, ih h]
        simp
      | error e =>
        rw [workerRun_cons_fail env d rest e hx hdl] at h
        simp at h

/-- A worker that finds every derived path already present skips everything:
no download call is issued and it returns nil. -/
theorem workerRun_all_skip (env : Env) (l : List Document)
    (h : ∀ d ∈ l, env.fileExists (gifPath env.outputDir d) = true) :
    workerRun env l =
      ⟨l.map (fun d => (d.id, TransferOutcome.skipped)), [], none⟩ := by
  induction l with
  | nil => rfl
  | cons d rest ih =>
    rw [workerRun_cons_skip env d rest (h d (List.mem_cons_self d rest)),
      ih (fun d' hd' => h d' (List.mem_cons_of_mem d hd'))]
    simp

/-- Once the first error is recorded and the context cancelled, further task
results leave the group state unchanged. -/
theorem foldl_groupStep_fixed (rs : List (Option Err)) (e : Err) :
    rs.foldl groupStep ⟨some e, true⟩ = ⟨some e, true⟩ := by
  induction rs with
  | nil => rfl
  | cons r rest ih =>
    cases r with
    | none => simpa [groupStep] using ih
    | some e' => simpa [groupStep] using ih

/-- The group's recorded error is the first non-nil task result (in completion
order), and the context is cancelled exactly when some task failed. -/
theorem groupWait_spec (rs : List (Option Err)) :
    (groupWait rs).firstErr = rs.findSome? id ∧
      (groupWait rs).cancelled = (rs.findSome? id).isSome := by
  induction rs with
  | nil => exact ⟨rfl, rfl⟩
  | cons r rest ih =>
    cases r with
    | none =>
      simpa [groupWait, groupStep, List.findSome?] using ih
    | some e =>
      have hfix := foldl_groupStep_fixed rest e
      constructor
      · show (List.foldl groupStep (groupStep ⟨none, false⟩ (some e)) rest).firstErr = _
        simp [groupStep, hfix, List.findSome?]
      · show (List.foldl groupStep (groupStep ⟨none, false⟩ (some e)) rest).cancelled = _
        simp [groupStep, hfix, List.findSome?]

/-- Membership in the producer's valid-document filter: exactly the non-empty
documents of the page appear. -/
theorem mem_filterMap_asNotEmpty (docs : List DocumentClass) (d : Document) :
    d ∈ docs.filterMap DocumentClass.asNotEmpty ↔
      DocumentClass.document d ∈ docs := by
  rw [List.mem_filterMap]
  constructor
  · rintro ⟨c, hc, he⟩
    cases c with
    | documentEmpty i => simp [DocumentClass.asNotEmpty] at he
    | document d' =>
      simp only [DocumentClass.asNotEmpty, Option.some.injEq] at he
      exact he ▸ hc
  · intro h
    exact ⟨DocumentClass.document d, h, rfl⟩

/-- The contents of the bounded channel never exceed its capacity. -/
theorem chanReach_length_le (cap : Nat) (q : List Document)
    (h : ChanReach cap q) : q.length ≤ cap := by
  induction h with
  | refl => simp
  | tail _ st ih =>
    cases st with
    | send d q0 hlt => simpa using hlt
    | recv d q0 => simp at ih; omega

/-- A list of nil task results followed by one final result finds exactly that
final result. -/
theorem findSome?_none_append (pres : List (Option Err)) (x : Option Err)
    (h : ∀ y ∈ pres, y = none) : (pres ++ [x]).findSome? id = x := by
  induction pres with
  | nil => cases x <;> rfl
  | cons y rest ih =>
    have hy := h y (List.mem_cons_self y rest)
    subst hy
    simpa [List.findSome?] using ih (fun y' hy' => h y' (List.mem_cons_of_mem none hy'))

/-! Claim theorems. -/

/-- C4: the producer closes the shared item channel exactly once on every exit
path — listing error, not-modified result, empty page, or a proper page — so no
worker can block forever on a receive. -/
theorem producer_closes_channel_once (r : Except Err SavedGifsResult) :
    (producerRun r).closeCount = 1 := by
  cases r with
  | error e => rfl
  | ok s =>
    cases s with
    | notModified => rfl
    | gifs docs => by_cases h : docs.length = 0 <;> simp [producerRun, h]

/-- C3: over the tasks' results in completion order, the group records exactly
the first failure as the single pipeline result (later failures are discarded),
and cancels the shared context exactly when some task failed; `groupWait` folds
the entire completion list, i.e. returns only after every task finished. -/
theorem run_first_error_wins (rs : List (Option Err)) :
    (groupWait rs).firstErr = rs.findSome? id ∧
      (groupWait rs).cancelled = (rs.findSome? id).isSome :=
  groupWait_spec rs

/-- C6: a "not modified" result and an empty first page both make the producer
stop emitting and return nil, the workers drain a closed empty channel and exit
cleanly, and the whole group records no error: a clean success with zero items
processed. -/
theorem degenerate_listing_clean (n : Nat) (env : Env) :
    (producerRun (Except.ok SavedGifsResult.notModified)).err = none ∧
    (producerRun (Except.ok SavedGifsResult.notModified)).emitted = [] ∧
    (producerRun (Except.ok (SavedGifsResult.gifs []))).err = none ∧
    (producerRun (Except.ok (SavedGifsResult.gifs []))).emitted = [] ∧
    workerRun env [] = ⟨[], [], none⟩ ∧
    (groupWait (none :: List.replicate n none)).firstErr = none := by
  refine ⟨rfl, rfl, rfl, rfl, rfl, ?_⟩
  rw [(groupWait_spec (none :: List.replicate n none)).1]
  have h : ∀ y ∈ (none :: List.replicate n (none : Option Err)), y = none := by
    intro y hy
    rcases List.mem_cons.mp hy with h | h
    · exact h
    · exact List.eq_of_mem_replicate h
  induction n with
  | zero => rfl
  | succ m ih =>
    simp only [List.findSome?, List.replicate, id] at ih ⊢
    exact ih (by intro y hy; exact h y (by
      rcases List.mem_cons.mp hy with h' | h'
      · exact h' ▸ List.mem_cons_self _ _
      · exact List.mem_cons_of_mem _ (List.mem_cons_of_mem _ h')))

/-- C7: on a proper page the producer returns nil, skips exactly the entries
rejected by `AsNotEmpty`, and sends every valid entry: the emitted list is the
`AsNotEmpty` filter of the page, and a document is emitted iff it occurs
non-empty in the page. -/
theorem producer_emits_exactly_valid (docs : List DocumentClass) :
    (producerRun (Except.ok (SavedGifsResult.gifs docs))).err = none ∧
    (producerRun (Except.ok (SavedGifsResult.gifs docs))).emitted
        = docs.filterMap DocumentClass.asNotEmpty ∧
    ∀ d : Document,
      d ∈ (producerRun (Except.ok (SavedGifsResult.gifs docs))).emitted ↔
        DocumentClass.document d ∈ docs := by
  have hemit : (producerRun (Except.ok (SavedGifsResult.gifs docs))).emitted
      = docs.filterMap DocumentClass.asNotEmpty := by
    by_cases h : docs.length = 0
    · rw [List.length_eq_zero.mp h]; rfl
    · simp [producerRun, h]
  refine ⟨?_, hemit, ?_⟩
  · by_cases h : docs.length = 0 <;> simp [producerRun, h]
  · intro d
    rw [hemit]
    exact mem_filterMap_asNotEmpty docs d

/-- C9: the document-to-path mapping is a pure function of the document's
numeric identity and the configured output directory, following the fixed
scheme `outputDir/<ID>.mp4`: two documents with the same identity map to the
same path. -/
theorem gifPath_deterministic (out : String) (d1 d2 : Document)
    (h : d1.id = d2.id) :
    gifPath out d1 = gifPath out d2 ∧
    gifPath out d1 = filepathJoin out (sprintfInt d1.id ++ ".mp4") :=
  ⟨by simp [gifPath, h], rfl⟩

/-- C9 witness: two documents with identity 1 but different dates share the
derived path. -/
theorem gifPath_deterministic_witness :
    gifPath "o" ⟨1, 5⟩ = gifPath "o" ⟨1, 99⟩ ∧
    gifPath "o" ⟨1, 5⟩ = filepathJoin "o" (sprintfInt 1 ++ ".mp4") :=
  gifPath_deterministic "o" ⟨1, 5⟩ ⟨1, 99⟩ rfl

/-- C8: the channel is created with capacity `jobs` — one times the worker
count — and along any reachable execution of sends (blocking at capacity) and
receives, the unconsumed contents never exceed that bound. -/
theorem channel_bounded (jobs : Nat) (q : List Document)
    (h : ChanReach (gifsChanCap jobs) q) :
    gifsChanCap jobs = 1 * jobs ∧ q.length ≤ gifsChanCap jobs :=
  ⟨(Nat.one_mul jobs).symm, chanReach_length_le _ q h⟩

/-- C8 witness: with 3 workers, after one send the channel holds one document,
within the bound. -/
theorem channel_bounded_witness :
    gifsChanCap 3 = 1 * 3 ∧
      ([(⟨1, 0⟩ : Document)]).length ≤ gifsChanCap 3 :=
  channel_bounded 3 [⟨1, 0⟩]
    (Relation.ReflTransGen.single (ChanStep.send ⟨1, 0⟩ [] (by decide)))

/-- C1: with the channel's exactly-once delivery modelled as an arbitrary split
`assign` of the emitted documents across the `assign.length ≥ 1` workers (no
duplication, no loss), no cancellation and no remote failure: the total number
of downloads plus skips equals the number K of valid emitted items, the multiset
of processed identities is exactly the multiset of emitted identities, and every
worker finishes without error. -/
theorem run_transfers_each_item_once (env : Env) (r : SavedGifsResult)
    (assign : List (List Document))
    (hN : 1 ≤ assign.length)
    (hok : ∀ d p, env.download d p = Except.ok ())
    (hpart : assign.flatten.Perm (producerRun (Except.ok r)).emitted) :
    ((assign.map
        (fun w => downloadCount (workerRun env w) + skipCount (workerRun env w))).sum
        = (producerRun (Except.ok r)).emitted.length) ∧
    ((assign.map (fun w => (workerRun env w).results.map Prod.fst)).flatten).Perm
        ((producerRun (Except.ok r)).emitted.map Document.id) ∧
    assign.map (fun w => (workerRun env w).err)
        = List.replicate assign.length none := by
  have htot := workerRun_total env hok
  refine ⟨?_, ?_, ?_⟩
  · have h1 : ∀ w : List Document,
        downloadCount (workerRun env w) + skipCount (workerRun env w) = w.length := by
      intro w
      have hc := count_outcomes (workerRun env w).results
      have hl : (workerRun env w).results.length = w.length := by
        have := congrArg List.length (htot w).1
        simpa using this
      simpa [downloadCount, skipCount, hl] using hc
    calc (assign.map
            (fun w => downloadCount (workerRun env w) + skipCount (workerRun env w))).sum
        = (assign.map List.length).sum := by
          exact congrArg List.sum (List.map_congr_left (fun w _ => h1 w))
      _ = assign.flatten.length := (List.length_flatten assign).symm
      _ = (producerRun (Except.ok r)).emitted.length := hpart.length_eq
  · have h2 : assign.map (fun w => (workerRun env w).results.map Prod.fst)
        = assign.map (fun w => w.map Document.id) :=
      List.map_congr_left (fun w _ => (htot w).1)
    rw [h2, ← List.map_flatten]
    exact hpart.map Document.id
  · refine List.eq_replicate_iff.mpr ⟨by simp, ?_⟩
    intro b hb
    obtain ⟨w, _, rfl⟩ := List.mem_map.mp hb
    exact (htot w).2

/-- A worker environment for concrete runs: empty local directory, every
download succeeds. -/
def envA : Env := ⟨"o", fun _ => false, fun _ _ => Except.ok ()⟩

/-- C1 witness: a page with two valid documents and one empty entry, split
across two workers, yields two transfers, the identities 1 and 2, and no
errors. -/
theorem run_transfers_each_item_once_witness :
    (([[⟨1, 0⟩], [⟨2, 0⟩]] : List (List Document)).map
        (fun w => downloadCount (workerRun envA w) + skipCount (workerRun envA w))).sum
        = (producerRun (Except.ok (SavedGifsResult.gifs
            [DocumentClass.document ⟨1, 0⟩, DocumentClass.documentEmpty 9,
             DocumentClass.document ⟨2, 0⟩]))).emitted.length ∧
    ((([[⟨1, 0⟩], [⟨2, 0⟩]] : List (List Document)).map
        (fun w => (workerRun envA w).results.map Prod.fst)).flatten).Perm
        ((producerRun (Except.ok (SavedGifsResult.gifs
            [DocumentClass.document ⟨1, 0⟩, DocumentClass.documentEmpty 9,
             DocumentClass.document ⟨2, 0⟩]))).emitted.map Document.id) ∧
    ([[⟨1, 0⟩], [⟨2, 0⟩]] : List (List Document)).map
        (fun w => (workerRun envA w).err)
        = List.replicate ([[⟨1, 0⟩], [⟨2, 0⟩]] : List (List Document)).length none :=
  run_transfers_each_item_once envA
    (SavedGifsResult.gifs
      [DocumentClass.document ⟨1, 0⟩, DocumentClass.documentEmpty 9,
       DocumentClass.document ⟨2, 0⟩])
    [[⟨1, 0⟩], [⟨2, 0⟩]] (by decide) (fun _ _ => rfl) (by decide)

/-- C5: when a dequeued document's download call fails (after an error-free
prefix), the worker returns `xerrors.Errorf("download: %w", err)` at once: the
failing document is the last download attempted (no retry, nothing of the rest
of the queue consumed), and when the other tasks finish without error the
coordinator returns exactly this wrapped failure. -/
theorem worker_transfer_failure_fatal (env : Env) (pre post : List Document)
    (d : Document) (e : Err) (pres : List (Option Err))
    (hpre : (workerRun env pre).err = none)
    (hx : env.fileExists (gifPath env.outputDir d) = false)
    (hdl : env.download d (gifPath env.outputDir d) = Except.error e)
    (hpres : ∀ x ∈ pres, x = none) :
    (workerRun env (pre ++ d :: post)).err = some (Err.wrap "download" e) ∧
    (workerRun env (pre ++ d :: post)).attempted
        = (workerRun env pre).attempted ++ [d.id] ∧
    (groupWait (pres ++ [(workerRun env (pre ++ d :: post)).err])).firstErr
        = some (Err.wrap "download" e) := by
  have happ := workerRun_append env pre (d :: post) hpre
  have hfail := workerRun_cons_fail env d post e hx hdl
  have herr : (workerRun env (pre ++ d :: post)).err
      = some (Err.wrap "download" e) := by
    rw [happ, hfail]
  refine ⟨herr, ?_, ?_⟩
  · rw [happ, hfail]
  · rw [herr, (groupWait_spec _).1, findSome?_none_append pres _ hpres]

/-- A worker environment in which every download call fails. -/
def envF : Env := ⟨"o", fun _ => false, fun _ _ => Except.error (Err.remote 3)⟩

/-- C5 witness: the very first document fails to download, the worker attempts
it once and returns the wrapped failure, and the group reports it when the one
other task succeeded. -/
theorem worker_transfer_failure_fatal_witness :
    (workerRun envF ([] ++ ⟨1, 0⟩ :: [])).err
        = some (Err.wrap "download" (Err.remote 3)) ∧
    (workerRun envF ([] ++ ⟨1, 0⟩ :: [])).attempted
        = (workerRun envF []).attempted ++ [1] ∧
    (groupWait ([none] ++ [(workerRun envF ([] ++ ⟨1, 0⟩ :: [])).err])).firstErr
        = some (Err.wrap "download" (Err.remote 3)) :=
  worker_transfer_failure_fatal envF [] [] ⟨1, 0⟩ (Err.remote 3) [none]
    rfl rfl rfl (fun _ hx => List.eq_of_mem_singleton hx)

/-- C2 (amended, download flow): a dequeued document whose derived path already
exists is skipped — no download call — and the worker continues with the rest
unchanged; and a second run over the filesystem left by a completed successful
first run (every processed document's path now exists) performs zero download
calls and returns nil. -/
theorem download_skip_idempotent (env : Env) (d : Document)
    (rest docs : List Document)
    (hx : env.fileExists (gifPath env.outputDir d) = true)
    (hok : ∀ d p, env.download d p = Except.ok ()) :
    workerRun env (d :: rest) =
      ⟨(d.id, TransferOutcome.skipped) :: (workerRun env rest).results,
       (workerRun env rest).attempted, (workerRun env rest).err⟩ ∧
    (workerRun env docs).err = none ∧
    (workerRun { env with fileExists := fsAfter env docs } docs).attempted = [] ∧
    downloadCount (workerRun { env with fileExists := fsAfter env docs } docs) = 0 ∧
    (workerRun { env with fileExists := fsAfter env docs } docs).err = none := by
  have hall : ∀ d' ∈ docs,
      ({ env with fileExists := fsAfter env docs } : Env).fileExists
        (gifPath ({ env with fileExists := fsAfter env docs } : Env).outputDir d')
        = true := by
    intro d' hd'
    show fsAfter env docs (gifPath env.outputDir d') = true
    unfold fsAfter
    have hany : docs.any
        (fun d0 => gifPath env.outputDir d0 == gifPath env.outputDir d') = true :=
      List.any_eq_true.mpr ⟨d', hd', by simp⟩
    rw [hany, Bool.or_true]
  have hskip := workerRun_all_skip { env with fileExists := fsAfter env docs } docs hall
  refine ⟨workerRun_cons_skip env d rest hx, (workerRun_total env hok docs).2,
    ?_, ?_, ?_⟩
  · rw [hskip]
  · rw [hskip]
    refine List.countP_eq_zero.mpr ?_
    intro r hr
    obtain ⟨d', _, rfl⟩ := List.mem_map.mp hr
    simp
  · rw [hskip]

/-- A worker environment whose local directory already holds every derived
path. -/
def envW : Env := ⟨"o", fun _ => true, fun _ _ => Except.ok ()⟩

/-- C2 witness: with both documents already present locally, the first dequeue
skips and continues, and the second run over the post-run filesystem issues no
download call. -/
theorem download_skip_idempotent_witness :
    workerRun envW (⟨1, 5⟩ :: [⟨2, 6⟩]) =
      ⟨(1, TransferOutcome.skipped) :: (workerRun envW [⟨2, 6⟩]).results,
       (workerRun envW [⟨2, 6⟩]).attempted, (workerRun envW [⟨2, 6⟩]).err⟩ ∧
    (workerRun envW [⟨1, 5⟩, ⟨2, 6⟩]).err = none ∧
    (workerRun { envW with fileExists := fsAfter envW [⟨1, 5⟩, ⟨2, 6⟩] }
        [⟨1, 5⟩, ⟨2, 6⟩]).attempted = [] ∧
    downloadCount (workerRun { envW with fileExists := fsAfter envW [⟨1, 5⟩, ⟨2, 6⟩] }
        [⟨1, 5⟩, ⟨2, 6⟩]) = 0 ∧
    (workerRun { envW with fileExists := fsAfter envW [⟨1, 5⟩, ⟨2, 6⟩] }
        [⟨1, 5⟩, ⟨2, 6⟩]).err = none :=
  download_skip_idempotent envW ⟨1, 5⟩ [⟨2, 6⟩] [⟨1, 5⟩, ⟨2, 6⟩] rfl (fun _ _ => rfl)

/-- A successful `sender.Media` result: a short sent-message update carrying a
non-empty document. -/
def sendOkShort : SendResult :=
  SendResult.updateShortSentMessage 10
    (Media.mediaDocument (DocumentClass.document ⟨1, 0⟩))

/-- Upload call outcomes in which every remote call succeeds (in particular,
outcomes of a run over a directory whose only `.mp4` was already fully
transferred by an identical earlier run — `upload` consults no
already-transferred state whatsoever, so the outcomes are the same). -/
def opsAllOk : String → FileOps := fun _ => ⟨none, Except.ok sendOkShort, none, none⟩

/-- C2 counterexample: the upload flow has no idempotency check. Running
`upload` over a directory holding one `.mp4` file performs one media transfer
and succeeds; since `uploadRun` depends only on the directory listing and the
remote call outcomes — no already-transferred condition is ever consulted — a
second run against the unchanged directory performs this same one transfer, not
the zero transfers the claim requires, and an already-transferred file is not
skipped. -/
theorem upload_always_transfers :
    uploadRun opsAllOk (uploadNames "dir" ["a.mp4"]) = ⟨1, none⟩ ∧
    (uploadRun opsAllOk (uploadNames "dir" ["a.mp4"])).transfers ≠ 0 :=
  ⟨rfl, by decide⟩

/-- Upload call outcomes in which everything succeeds except the buffer-message
revoke (delete), which fails with `Err.remote 7`. -/
def opsDeleteFail : FileOps :=
  ⟨none, Except.ok sendOkShort, none, some (Err.remote 7)⟩

/-- C10: when revoking the buffer message fails after the media was sent,
`upload` does return a non-nil error of the delete phase, but it wraps the
stale nil `err` variable (`xerrors.Errorf("delete: %w", err)`) instead of
`deleteErr`: the actual revoke failure `Err.remote 7` is dropped from the
returned error. -/
theorem upload_delete_failure_dropped :
    (uploadFile opsDeleteFail).2 = some (Err.wrapNil "delete") ∧
    opsDeleteFail.deleteErr = some (Err.remote 7) ∧
    (uploadFile opsDeleteFail).2 ≠ some (Err.wrap "delete" (Err.remote 7)) :=
  ⟨rfl, rfl, by decide⟩
